import Mathlib

/-!
Verification of the double-entry ledger core of the Wonder_rabbit Discord
economy bot (`database.py`, `cogs/currency.py`, `cogs/balance.py`,
`cogs/monthly_allowance.py`, `models.py`).

Modelling conventions:
* SQLite tables are Lean lists; the implicit `rowid` of a row is its index
  in the list (the source only compares ids for equality and reads them
  back right after an insert, so 0-based indices are a faithful id supply).
* A `Decimal` amount written by `post_ledger` is stored as the decimal
  text `str(amount)`; a stored amount is modelled as `Dec` = integer
  mantissa plus number of fractional digits, exactly the information
  content of that text (`e = 0` iff the text has no decimal point, which
  is what decides SQLite's integer-vs-real treatment of the text).
* `balance_of` runs `SELECT COALESCE(SUM(CAST(amount AS TEXT)), '0')`.
  SQLite sums TEXT values by numeric coercion: integer-looking text is
  accumulated exactly in a 64-bit integer accumulator, and as soon as a
  real-looking text appears the accumulator is converted to an IEEE-754
  binary64 double and every further step is a rounded double addition.
  Binary64 numbers are modelled by their exact rational values with
  round-to-nearest-even (`roundF64`); sub-normals, overflow and 64-bit
  integer overflow are not modelled, as every amount in the modelled
  flows stays far inside the normal range.  The Python side then applies
  `Decimal(row[0])`, which converts an `int` or `float` result exactly,
  so the value `balance_of` returns is exactly the rational produced
  here.
* Python `str.upper()` is modelled on symbol strings as the ASCII case
  mapping over the string's code points (`List Nat`); it agrees with
  Python on every ASCII symbol.
* `aiosqlite` connections roll back any uncommitted transaction when the
  `async with` block closes the connection, so an error return before
  `db.commit()` leaves the database unchanged; operations are modelled as
  pure functions returning the final committed state, with error paths
  returning the original state.  For claim C7, which is about the
  transaction boundary itself, a connection is modelled explicitly as a
  committed state plus a pending view (`Conn`).
-/

set_option maxRecDepth 100000

namespace WonderRabbit

attribute [local semireducible] Rat.add Rat.sub Rat.mul

/-! ## Stored decimal amounts and IEEE-754 binary64 arithmetic -/

/-- The information content of the decimal text `str(amount)` written by
`post_ledger`: integer mantissa `m` and the number `e` of fractional
digits.  The denoted exact value is `m / 10 ^ e`; the text is
integer-looking (no decimal point) iff `e = 0`. -/
structure Dec where
  m : Int
  e : Nat
  deriving DecidableEq

/-- The exact rational value denoted by a stored decimal text. -/
def Dec.val (d : Dec) : ℚ := Rat.divInt d.m ((10 : Int) ^ d.e)

/-- The text `str(-amount)`: same digits, negated mantissa. -/
def Dec.neg (d : Dec) : Dec := ⟨-d.m, d.e⟩

/-- `⌊log₂ n⌋` by structural recursion on a fuel bound. -/
def log2fuel : Nat → Nat → Nat
  | 0, _ => 0
  | fuel + 1, n => if n ≤ 1 then 0 else log2fuel fuel (n / 2) + 1

/-- `⌊log₂ n⌋` (0 for `n = 0`). -/
def natLog2 (n : Nat) : Nat := log2fuel n n

/-- `2 ^ e` for an integer exponent, as a rational. -/
def pow2 (e : Int) : ℚ :=
  if 0 ≤ e then Rat.divInt ((2 : Int) ^ e.toNat) 1
  else Rat.divInt 1 ((2 : Int) ^ (-e).toNat)

/-- Floor of a rational, by floor division of numerator by denominator. -/
def ratFloor (q : ℚ) : Int := q.num.fdiv (q.den : Int)

/-- `⌊log₂ q⌋` for a positive rational `q`: the unique `e` with
`2 ^ e ≤ q < 2 ^ (e + 1)`. -/
def floorLog2 (q : ℚ) : Int :=
  let e0 : Int := (natLog2 q.num.natAbs : Int) - (natLog2 q.den : Int)
  if pow2 (e0 + 1) ≤ q then e0 + 1 else if pow2 e0 ≤ q then e0 else e0 - 1

/-- Round a rational to the nearest IEEE-754 binary64 value
(round-to-nearest, ties-to-even), in the normal range. -/
def roundF64 (q : ℚ) : ℚ :=
  if q = 0 then 0
  else
    let a : ℚ := if q < 0 then -q else q
    let e : Int := floorLog2 a
    let ulp : ℚ := pow2 (e - 52)
    let n : Int := ratFloor (a * pow2 (52 - e))
    let r : ℚ := a - (n : ℚ) * ulp
    let n' : Int :=
      if 2 * r < ulp then n
      else if ulp < 2 * r then n + 1
      else if n % 2 = 0 then n else n + 1
    (if q < 0 then -1 else 1) * ((n' : ℚ) * ulp)

/-- One rounded binary64 addition. -/
def f64add (x y : ℚ) : ℚ := roundF64 (x + y)

/-- SQLite's numeric coercion of one stored decimal text, as used inside
`SUM`: a real-looking text becomes the binary64 nearest its exact
value. -/
def decToF64 (d : Dec) : ℚ := roundF64 d.val

/-- One step of SQLite's `sum()` aggregate: an exact integer accumulator
until the first real-looking value, then binary64 additions. -/
def sqliteSumStep : Int ⊕ ℚ → Dec → Int ⊕ ℚ
  | .inl i, d =>
      if d.e = 0 then .inl (i + d.m)
      else .inr (f64add (roundF64 (i : ℚ)) (decToF64 d))
  | .inr x, d =>
      .inr (f64add x (if d.e = 0 then roundF64 (d.m : ℚ) else decToF64 d))

/-- SQLite `SUM` over the stored decimal texts of a list of rows, as the
exact rational value of the resulting `INTEGER` or `REAL` (0 when the
list is empty, matching `COALESCE(..., '0')`). -/
def sqliteSum (l : List Dec) : ℚ :=
  match l.foldl sqliteSumStep (.inl 0) with
  | .inl i => (i : ℚ)
  | .inr x => x

/-! ## Python `str.upper()` on symbol strings -/

/-- ASCII case mapping of one code point (what `str.upper()` does on the
ASCII symbols in scope). -/
def pyUpperChar (c : Nat) : Nat := if 97 ≤ c ∧ c ≤ 122 then c - 32 else c

/-- `str.upper()` over a string's code points. -/
def pyUpper (s : List Nat) : List Nat := s.map pyUpperChar

/-- Code points of a Lean string literal, for concrete instances. -/
def strCodes (s : String) : List Nat := s.data.map Char.toNat

/-! ## Data model (`ensure_db` schema, the tables the claims touch) -/

/-- `accounts.name` (UNIQUE): the source builds
`"user:{discordId}:{guildId}"`, `"treasury:{guildId}"` and
`"burn:{guildId}"`; the three formats never collide, so the name is an
inductive. -/
inductive AccountName where
  | user (discordId guildId : Nat)
  | treasury (guildId : Nat)
  | burn (guildId : Nat)
  deriving DecidableEq

structure Account where
  user_id : Option Nat
  guild_id : Nat
  name : AccountName
  atype : String
  deriving DecidableEq

structure Asset where
  guild_id : Nat
  symbol : List Nat
  name : List Nat
  decimals : Nat
  deriving DecidableEq

/-- A `transactions` row; `reference` and `unique_hash` are never read by
any modelled code path and are omitted. -/
structure Tx where
  kind : String
  created_by : Option Nat
  deriving DecidableEq

structure LedgerEntry where
  tx_id : Nat
  account_id : Nat
  asset_id : Nat
  amount : Dec
  deriving DecidableEq

/-- A `monthly_allowance_history` row (columns as in the INSERT of
`transfer_allowance`). -/
structure AllowanceHistRow where
  guild_id : Nat
  role_id : Nat
  user_id : Nat
  asset_id : Nat
  amount : Dec
  year_month : String
  deriving DecidableEq

/-- A `role_purchases` row (the columns the model needs). -/
structure RolePurchaseRow where
  user_id : Nat
  plan_id : Nat
  guild_id : Nat
  deriving DecidableEq

structure Db where
  users : List Nat
  accounts : List Account
  assets : List Asset
  transactions : List Tx
  ledger : List LedgerEntry
  allowance_history : List AllowanceHistRow
  role_purchases : List RolePurchaseRow
  deriving DecidableEq

/-- Index of the first row with the given discord id (`SELECT id FROM
users WHERE discord_user_id=?`). -/
def findUserIdx : List Nat → Nat → Option Nat
  | [], _ => none
  | u :: rest, d => if u = d then some 0 else (findUserIdx rest d).map (· + 1)

/-- Index of the first account row with the given name (`SELECT id FROM
accounts WHERE name=?`). -/
def findAccount : List Account → AccountName → Option Nat
  | [], _ => none
  | a :: rest, nm => if a.name = nm then some 0 else (findAccount rest nm).map (· + 1)

/-- First asset row with the given (already upper-cased) symbol and
guild, with its id. -/
def findAsset : List Asset → Nat → List Nat → Nat → Option (Nat × Asset)
  | [], _, _, _ => none
  | a :: rest, i, key, g =>
      if a.symbol = key ∧ a.guild_id = g then some (i, a) else findAsset rest (i + 1) key g

/-! ## `database.py` operations -/

/-- `upsert_user` (database.py:52): `INSERT OR IGNORE` by discord id,
then read back the internal id.  The read-back always finds the row just
ensured, so the `Option` is collapsed with a (provably unused) default. -/
def upsert_user (st : Db) (discord_user_id : Nat) : Db × Nat :=
  let users' :=
    if discord_user_id ∈ st.users then st.users else st.users ++ [discord_user_id]
  ({ st with users := users' }, (findUserIdx users' discord_user_id).getD 0)

/-- `INSERT OR IGNORE INTO accounts(...)`: a no-op when a row with the
same (unique) name exists. -/
def insertAccountIOI (st : Db) (row : Account) : Db :=
  if (findAccount st.accounts row.name).isSome then st
  else { st with accounts := st.accounts ++ [row] }

/-- `ensure_system_accounts` (database.py:125). -/
def ensure_system_accounts (st : Db) (guild_id : Nat) : Db :=
  let st1 := insertAccountIOI st ⟨none, guild_id, .treasury guild_id, "treasury"⟩
  insertAccountIOI st1 ⟨none, guild_id, .burn guild_id, "burn"⟩

/-- `ensure_user_account` (database.py:143): upsert the user, insert the
account row with `INSERT OR IGNORE`, read the id back by name. -/
def ensure_user_account (st : Db) (discord_user_id guild_id : Nat) : Db × Nat :=
  let r := upsert_user st discord_user_id
  let st2 := insertAccountIOI r.1 ⟨some r.2, guild_id, .user discord_user_id guild_id, "user"⟩
  (st2, (findAccount st2.accounts (.user discord_user_id guild_id)).getD 0)

/-- `account_id_by_name` (database.py:165); `none` models the
`RuntimeError` raised when the account does not exist. -/
def account_id_by_name (st : Db) (nm : AccountName) : Option Nat :=
  findAccount st.accounts nm

/-- `get_asset` (database.py:73): upper-cases the symbol argument, then
selects by (symbol, guild). -/
def get_asset (st : Db) (symbol : List Nat) (guild_id : Nat) : Option (Nat × Asset) :=
  findAsset st.assets 0 (pyUpper symbol) guild_id

/-- `create_asset` (database.py:106): inserts with the upper-cased
symbol. -/
def create_asset (st : Db) (symbol name : List Nat) (guild_id : Nat) (decimals : Nat) : Db :=
  { st with assets := st.assets ++ [⟨guild_id, pyUpper symbol, name, decimals⟩] }

/-- `balance_of` (database.py:189):
`SELECT COALESCE(SUM(CAST(amount AS TEXT)), '0') FROM ledger_entries
WHERE account_id=? AND asset_id=?`, then `Decimal(row[0])`. -/
def balance_of (st : Db) (account_id asset_id : Nat) : ℚ :=
  sqliteSum
    ((st.ledger.filter fun e => e.account_id = account_id ∧ e.asset_id = asset_id).map
      (·.amount))

/-- `new_transaction` (database.py:270): insert, then
`last_insert_rowid()`. -/
def new_transaction (st : Db) (kind : String) (created_by_user_id : Option Nat) : Db × Nat :=
  ({ st with transactions := st.transactions ++ [⟨kind, created_by_user_id⟩] },
    st.transactions.length)

/-- `post_ledger` (database.py:298): appends one posting row, storing
`str(amount)`. -/
def post_ledger (st : Db) (tx_id account_id asset_id : Nat) (amount : Dec) : Db :=
  { st with ledger := st.ledger ++ [⟨tx_id, account_id, asset_id, amount⟩] }

/-- `auto_refill_treasury_if_needed` (database.py:209).  Note the Python
truthiness test `if required_amount and current_balance < required_amount`:
a supplied required amount equal to 0 is falsy. -/
def auto_refill_treasury_if_needed (st : Db) (treasury_acc_id asset_id guild_id : Nat)
    (required_amount : Option ℚ) : Db × Bool :=
  let current_balance := balance_of st treasury_acc_id asset_id
  let cond1 : Bool :=
    match required_amount with
    | some r => decide (¬ r = 0) && decide (current_balance < r)
    | none => false
  let should_refill : Bool := cond1 || decide (current_balance ≤ 0)
  if should_refill then
    let r := new_transaction st "auto_treasury_refill" none
    let st2 := post_ledger r.1 r.2 treasury_acc_id asset_id ⟨1000000000, 0⟩
    (st2, true)
  else
    (st, false)

/-! ## Cog operations -/

/-- `Decimal.quantize(Decimal(10) ** -decimals, rounding=ROUND_DOWN)`:
truncation toward zero at `decimals` fractional digits. -/
def quantize_down (q : ℚ) (decimals : Nat) : Dec :=
  let scaled : ℚ := q * (((10 : Int) ^ decimals : Int) : ℚ)
  if 0 ≤ scaled then ⟨ratFloor scaled, decimals⟩ else ⟨-ratFloor (-scaled), decimals⟩

inductive PayResult where
  | ok
  | errNoAsset
  | errInsufficient
  deriving DecidableEq

/-- `/pay` (cogs/balance.py:130-155), the slice inside the database
block (input validation of the amount string happens before it).  Error
returns leave the `async with` block before `db.commit()`, so the
connection close rolls every pending write back: those paths return the
original state. -/
def pay (st : Db) (payer payee guild_id : Nat) (symbol : List Nat) (amt : ℚ) :
    Db × PayResult :=
  match get_asset st (pyUpper symbol) guild_id with
  | none => (st, .errNoAsset)
  | some (asset_id, asset) =>
    let r1 := ensure_user_account st payer guild_id
    let r2 := ensure_user_account r1.1 payee guild_id
    let bal := balance_of r2.1 r1.2 asset_id
    let qamt := quantize_down amt asset.decimals
    if bal < qamt.val then (st, .errInsufficient)
    else
      let r3 := upsert_user r2.1 payer
      let r4 := new_transaction r3.1 "transfer" (some r3.2)
      let st5 := post_ledger r4.1 r4.2 r1.2 asset_id qamt.neg
      let st6 := post_ledger st5 r4.2 r2.2 asset_id qamt
      (st6, .ok)

inductive PurchaseResult where
  | ok
  | errNoAsset
  | errInsufficient
  | errNoTreasury
  deriving DecidableEq

/-- `RolePlanSelectDropdown.callback` (models.py:187-244), the ledger
slice, with the selected plan's row (price text, symbol) as arguments. -/
def role_purchase_callback (st : Db) (buyer guild_id plan_id : Nat) (price : Dec)
    (currency_symbol : List Nat) : Db × PurchaseResult :=
  match get_asset st currency_symbol guild_id with
  | none => (st, .errNoAsset)
  | some (asset_id, _asset) =>
    let r1 := upsert_user st buyer
    let r2 := ensure_user_account r1.1 buyer guild_id
    let user_balance := balance_of r2.1 r2.2 asset_id
    if user_balance < price.val then (st, .errInsufficient)
    else
      match account_id_by_name r2.1 (.treasury guild_id) with
      | none => (st, .errNoTreasury)
      | some treasury_acc =>
        let r3 := new_transaction r2.1 "role_purchase" (some r1.2)
        let st4 := post_ledger r3.1 r3.2 r2.2 asset_id price.neg
        let st5 := post_ledger st4 r3.2 treasury_acc asset_id price
        ({ st5 with role_purchases := st5.role_purchases ++ [⟨r1.2, plan_id, guild_id⟩] },
          .ok)

inductive CreateCurrencyResult where
  | ok (asset_id treasury_acc_id : Nat)
  | errDuplicate
  | errInternal
  deriving DecidableEq

/-- `/currency create` (cogs/currency.py:66-121), the database slice:
upper-case the symbol, reject a duplicate, create the asset and system
accounts, then issue 1,000,000,000 units to the treasury under an
`initial_issue` transaction and commit.  `errInternal` models the
(unreachable) exceptions of the two read-backs, which would roll back. -/
def create_currency (st : Db) (creator guild_id : Nat) (symbol name : List Nat)
    (decimals : Nat) : Db × CreateCurrencyResult :=
  let symbol' := pyUpper symbol
  match get_asset st symbol' guild_id with
  | some _ => (st, .errDuplicate)
  | none =>
    let st1 := create_asset st symbol' name guild_id decimals
    let st2 := ensure_system_accounts st1 guild_id
    match get_asset st2 symbol' guild_id with
    | none => (st, .errInternal)
    | some (asset_id, _) =>
      match account_id_by_name st2 (.treasury guild_id) with
      | none => (st, .errInternal)
      | some treasury_acc =>
        let r3 := upsert_user st2 creator
        let r4 := new_transaction r3.1 "initial_issue" (some r3.2)
        let st5 := post_ledger r4.1 r4.2 treasury_acc asset_id ⟨1000000000, 0⟩
        (st5, .ok asset_id treasury_acc)

/-- `transfer_allowance` (cogs/monthly_allowance.py:130-179): upsert the
user, ensure the account, refill the treasury if needed, post the two
legs, record the history row — note the history row stores the INTERNAL
user id `uid` — and commit.  `none` models the `RuntimeError` of the
treasury lookup. -/
def transfer_allowance (st : Db) (guild_id role_id user_id asset_id : Nat) (amount : Dec)
    (year_month : String) : Option Db :=
  let r1 := upsert_user st user_id
  let st2 := insertAccountIOI r1.1 ⟨some r1.2, guild_id, .user user_id guild_id, "user"⟩
  match findAccount st2.accounts (.user user_id guild_id) with
  | none => none
  | some user_account_id =>
    match account_id_by_name st2 (.treasury guild_id) with
    | none => none
    | some treasury_account_id =>
      let r3 :=
        auto_refill_treasury_if_needed st2 treasury_account_id asset_id guild_id
          (some amount.val)
      let r4 := new_transaction r3.1 "monthly_allowance" none
      let st5 := post_ledger r4.1 r4.2 treasury_account_id asset_id amount.neg
      let st6 := post_ledger st5 r4.2 user_account_id asset_id amount
      some { st6 with
              allowance_history :=
                st6.allowance_history ++
                  [⟨guild_id, role_id, r1.2, asset_id, amount, year_month⟩] }

/-- One member's step of `execute_monthly_allowances`
(cogs/monthly_allowance.py:107-126): the duplicate check queries the
history table with `str(member.id)` — the DISCORD id — as the `user_id`
key, then pays via `transfer_allowance` when no row matches.  A raised
`transfer_allowance` is caught and logged (state falls back). -/
def process_member_allowance (st : Db) (guild_id role_id member_id asset_id : Nat)
    (amount : Dec) (year_month : String) : Db :=
  let existing := st.allowance_history.any fun h =>
    h.guild_id = guild_id ∧ h.role_id = role_id ∧ h.user_id = member_id ∧
      h.asset_id = asset_id ∧ h.year_month = year_month
  if existing then st
  else
    match transfer_allowance st guild_id role_id member_id asset_id amount year_month with
    | some st' => st'
    | none => st

/-! ## Connection-level model for the refill commit (claim C7) -/

/-- One `aiosqlite` connection: the durable committed state and the
connection's pending view.  `commit` publishes the whole pending view;
closing without commit (or `ROLLBACK`) restores the committed state. -/
structure Conn where
  committed : Db
  pending : Db
  deriving DecidableEq

def Conn.commit (c : Conn) : Conn := ⟨c.pending, c.pending⟩

def Conn.rollback (c : Conn) : Conn := ⟨c.committed, c.committed⟩

/-- `auto_refill_treasury_if_needed` at connection level: all reads and
writes go through the caller's own connection (`db`), and the
`await db.commit()` on the refill path commits that connection's whole
pending transaction. -/
def auto_refill_treasury_if_needed_conn (c : Conn) (treasury_acc_id asset_id guild_id : Nat)
    (required_amount : Option ℚ) : Conn × Bool :=
  let current_balance := balance_of c.pending treasury_acc_id asset_id
  let cond1 : Bool :=
    match required_amount with
    | some r => decide (¬ r = 0) && decide (current_balance < r)
    | none => false
  let should_refill : Bool := cond1 || decide (current_balance ≤ 0)
  if should_refill then
    let r := new_transaction c.pending "auto_treasury_refill" none
    let p2 := post_ledger r.1 r.2 treasury_acc_id asset_id ⟨1000000000, 0⟩
    (Conn.commit ⟨c.committed, p2⟩, true)
  else
    (c, false)

/-! ## Derived observations used by the claims -/

/-- Exact sum of the decimal amounts posted for one (account, asset)
pair — what the spec says `balance_of` returns. -/
def ledger_exact_sum (st : Db) (account_id asset_id : Nat) : ℚ :=
  ((st.ledger.filter fun e => e.account_id = account_id ∧ e.asset_id = asset_id).map
    (fun e => e.amount.val)).sum

/-- Number of postings recorded under one transaction id. -/
def tx_posting_count (st : Db) (tx_id : Nat) : Nat :=
  (st.ledger.filter fun e => e.tx_id = tx_id).length

/-- Exact sum of the signed amounts posted under one transaction id for
one asset (the double-entry invariant says this is 0). -/
def tx_asset_sum (st : Db) (tx_id asset_id : Nat) : ℚ :=
  ((st.ledger.filter fun e => e.tx_id = tx_id ∧ e.asset_id = asset_id).map
    (fun e => e.amount.val)).sum

/-- Number of account rows carrying one (unique) name. -/
def account_name_count (st : Db) (nm : AccountName) : Nat :=
  (st.accounts.filter fun a => a.name = nm).length

def CreateCurrencyResult.isOk : CreateCurrencyResult → Bool
  | .ok _ _ => true
  | _ => false

def CreateCurrencyResult.assetId : CreateCurrencyResult → Nat
  | .ok a _ => a
  | _ => 0

def CreateCurrencyResult.treasuryId : CreateCurrencyResult → Nat
  | .ok _ t => t
  | _ => 0

/-- A primitive database write another concurrent caller of
`ensure_user_account` (or any other flow) may interleave: the two insert
statements are `INSERT OR IGNORE` on `users` and on `accounts`. -/
inductive StepOp where
  | insUser (d : Nat)
  | insAcc (row : Account)

def applyStep (st : Db) : StepOp → Db
  | .insUser d => (upsert_user st d).1
  | .insAcc row => insertAccountIOI st row

/-! ## Concrete instances -/

/-- Guild 7 with asset `GOLD` (2 decimals, id 0) and its system accounts
(treasury id 0, burn id 1); no ledger rows yet. -/
def dbGold : Db :=
  { users := []
    accounts := [⟨none, 7, .treasury 7, "treasury"⟩, ⟨none, 7, .burn 7, "burn"⟩]
    assets := [⟨7, strCodes "GOLD", strCodes "Gold Coin", 2⟩]
    transactions := []
    ledger := []
    allowance_history := []
    role_purchases := [] }

/-- An empty tenant: no rows at all. -/
def dbEmpty : Db :=
  { users := [], accounts := [], assets := [], transactions := [], ledger := []
    allowance_history := [], role_purchases := [] }

/-- Guild 7 with an 8-decimal asset `OCT` (id 0), system accounts, a user
account (id 2) for discord user 42, and one posting of `'0.10000000'`
(0.1 quantized to the asset's 8-decimal precision) for (account 2,
asset 0). -/
def dbOct : Db :=
  { users := [42]
    accounts := [⟨none, 7, .treasury 7, "treasury"⟩, ⟨none, 7, .burn 7, "burn"⟩,
                 ⟨some 0, 7, .user 42 7, "user"⟩]
    assets := [⟨7, strCodes "OCT", strCodes "Octal", 8⟩]
    transactions := [⟨"issue", none⟩]
    ledger := [⟨0, 2, 0, ⟨10000000, 8⟩⟩]
    allowance_history := []
    role_purchases := [] }

/-- Credit `X = 0.20000000` to (account 2, asset 0) of `dbOct` under a
fresh transaction, then debit the same `X` under another one: the
round-trip of claim C3. -/
def dbOctCredit : Db :=
  post_ledger (new_transaction dbOct "issue" none).1
    (new_transaction dbOct "issue" none).2 2 0 ⟨20000000, 8⟩

def dbOctRoundTrip : Db :=
  post_ledger (new_transaction dbOctCredit "transfer" none).1
    (new_transaction dbOctCredit "transfer" none).2 2 0 (Dec.neg ⟨20000000, 8⟩)

/-- Guild 7 with asset `GOLD` (id 0), system accounts, a user account
(id 2) holding the text `'10.00'` — balance 10.00 — plus a second user
55 with no funds. -/
def dbPay : Db :=
  { users := [42, 55]
    accounts := [⟨none, 7, .treasury 7, "treasury"⟩, ⟨none, 7, .burn 7, "burn"⟩,
                 ⟨some 0, 7, .user 42 7, "user"⟩, ⟨some 1, 7, .user 55 7, "user"⟩]
    assets := [⟨7, strCodes "GOLD", strCodes "Gold Coin", 2⟩]
    transactions := [⟨"issue", none⟩]
    ledger := [⟨0, 2, 0, ⟨1000, 2⟩⟩]
    allowance_history := []
    role_purchases := [] }

/-- Guild 7 as in `dbGold` but with the treasury already funded with
1,000,000,000 `GOLD` by an initial issue. -/
def dbFunded : Db :=
  { users := []
    accounts := [⟨none, 7, .treasury 7, "treasury"⟩, ⟨none, 7, .burn 7, "burn"⟩]
    assets := [⟨7, strCodes "GOLD", strCodes "Gold Coin", 2⟩]
    transactions := [⟨"initial_issue", none⟩]
    ledger := [⟨0, 0, 0, ⟨1000000000, 0⟩⟩]
    allowance_history := []
    role_purchases := [] }

/-- The monthly allowance for role 5 in guild 7, amount text `'1000'`,
paid to discord member 999, for period `2025-09`: run once, and run a
second time for the same period. -/
def allowOnce : Db := process_member_allowance dbFunded 7 5 999 0 ⟨1000, 0⟩ "2025-09"

def allowTwice : Db := process_member_allowance allowOnce 7 5 999 0 ⟨1000, 0⟩ "2025-09"

/-- The account row a caller (e.g. `/currency give`) has inserted via
`ensure_user_account` inside its still-uncommitted transaction when it
calls the treasury refill. -/
def callerPendingRow : Account := ⟨some 0, 7, .user 555 7, "user"⟩

/-- A connection whose committed state is `dbGold` and whose pending
(uncommitted) view additionally holds the caller's user row and account
row. -/
def connCaller : Conn :=
  ⟨dbGold,
    { dbGold with users := [555], accounts := dbGold.accounts ++ [callerPendingRow] }⟩

/-- The refill invoked by that caller before its treasury debit
(required amount 5, treasury balance 0 — so it refills). -/
def refillOnConn : Conn × Bool := auto_refill_treasury_if_needed_conn connCaller 0 0 7 (some 5)

/-- The refill invoked directly on `dbGold` (balance 0, no required
amount — so it refills). -/
def refillOnGold : Db × Bool := auto_refill_treasury_if_needed dbGold 0 0 7 none

/-- `/currency create` of a fresh currency `gold` (lower case on input)
by user 99 on an empty tenant. -/
def createGold : Db × CreateCurrencyResult :=
  create_currency dbEmpty 99 7 (strCodes "gold") (strCodes "Gold Coin") 2

/-! ## Sanity checks of the binary64 model against the known doubles -/

example : roundF64 (Rat.divInt 1 10) = Rat.divInt 3602879701896397 36028797018963968 := by
  decide

example : roundF64 (Rat.divInt 2 10) = Rat.divInt 3602879701896397 18014398509481984 := by
  decide

example :
    f64add (roundF64 (Rat.divInt 1 10)) (roundF64 (Rat.divInt 2 10)) =
      Rat.divInt 5404319552844596 18014398509481984 := by decide

example :
    f64add (f64add (roundF64 (Rat.divInt 1 10)) (roundF64 (Rat.divInt 2 10)))
        (roundF64 (Rat.divInt (-2) 10)) =
      Rat.divInt 1801439850948199 18014398509481984 := by decide

example : sqliteSum [⟨1000000000, 0⟩] = 1000000000 := by decide

example : sqliteSum [⟨1000, 2⟩] = 10 := by decide

example : sqliteSum [] = 0 := by decide

/-! ## Helper lemmas -/

@[simp] lemma upsert_user_accounts (st : Db) (d : Nat) :
    (upsert_user st d).1.accounts = st.accounts := rfl

@[simp] lemma upsert_user_ledger (st : Db) (d : Nat) :
    (upsert_user st d).1.ledger = st.ledger := rfl

@[simp] lemma upsert_user_assets (st : Db) (d : Nat) :
    (upsert_user st d).1.assets = st.assets := rfl

@[simp] lemma upsert_user_transactions (st : Db) (d : Nat) :
    (upsert_user st d).1.transactions = st.transactions := rfl

@[simp] lemma insertAccountIOI_ledger (st : Db) (row : Account) :
    (insertAccountIOI st row).ledger = st.ledger := by
  unfold insertAccountIOI; split <;> rfl

@[simp] lemma insertAccountIOI_assets (st : Db) (row : Account) :
    (insertAccountIOI st row).assets = st.assets := by
  unfold insertAccountIOI; split <;> rfl

@[simp] lemma insertAccountIOI_transactions (st : Db) (row : Account) :
    (insertAccountIOI st row).transactions = st.transactions := by
  unfold insertAccountIOI; split <;> rfl

@[simp] lemma insertAccountIOI_users (st : Db) (row : Account) :
    (insertAccountIOI st row).users = st.users := by
  unfold insertAccountIOI; split <;> rfl

@[simp] lemma ensure_system_accounts_ledger (st : Db) (g : Nat) :
    (ensure_system_accounts st g).ledger = st.ledger := by
  unfold ensure_system_accounts; simp

@[simp] lemma ensure_system_accounts_assets (st : Db) (g : Nat) :
    (ensure_system_accounts st g).assets = st.assets := by
  unfold ensure_system_accounts; simp

@[simp] lemma ensure_system_accounts_transactions (st : Db) (g : Nat) :
    (ensure_system_accounts st g).transactions = st.transactions := by
  unfold ensure_system_accounts; simp

@[simp] lemma ensure_user_account_ledger (st : Db) (d g : Nat) :
    (ensure_user_account st d g).1.ledger = st.ledger := by
  unfold ensure_user_account; simp

@[simp] lemma ensure_user_account_assets (st : Db) (d g : Nat) :
    (ensure_user_account st d g).1.assets = st.assets := by
  unfold ensure_user_account; simp

@[simp] lemma ensure_user_account_transactions (st : Db) (d g : Nat) :
    (ensure_user_account st d g).1.transactions = st.transactions := by
  unfold ensure_user_account; simp

@[simp] lemma new_transaction_ledger (st : Db) (k : String) (c : Option Nat) :
    (new_transaction st k c).1.ledger = st.ledger := rfl

@[simp] lemma new_transaction_assets (st : Db) (k : String) (c : Option Nat) :
    (new_transaction st k c).1.assets = st.assets := rfl

@[simp] lemma new_transaction_accounts (st : Db) (k : String) (c : Option Nat) :
    (new_transaction st k c).1.accounts = st.accounts := rfl

@[simp] lemma new_transaction_transactions (st : Db) (k : String) (c : Option Nat) :
    (new_transaction st k c).1.transactions = st.transactions ++ [⟨k, c⟩] := rfl

@[simp] lemma new_transaction_id (st : Db) (k : String) (c : Option Nat) :
    (new_transaction st k c).2 = st.transactions.length := rfl

@[simp] lemma post_ledger_ledger (st : Db) (t a i : Nat) (d : Dec) :
    (post_ledger st t a i d).ledger = st.ledger ++ [⟨t, a, i, d⟩] := rfl

@[simp] lemma post_ledger_assets (st : Db) (t a i : Nat) (d : Dec) :
    (post_ledger st t a i d).assets = st.assets := rfl

@[simp] lemma post_ledger_transactions (st : Db) (t a i : Nat) (d : Dec) :
    (post_ledger st t a i d).transactions = st.transactions := rfl

@[simp] lemma post_ledger_accounts (st : Db) (t a i : Nat) (d : Dec) :
    (post_ledger st t a i d).accounts = st.accounts := rfl

/-- `balance_of` only reads the ledger. -/
lemma balance_of_congr (st st' : Db) (a i : Nat) (h : st.ledger = st'.ledger) :
    balance_of st a i = balance_of st' a i := by
  unfold balance_of; rw [h]

lemma findAccount_nil (nm : AccountName) : findAccount [] nm = none := rfl

lemma findAccount_cons (a : Account) (rest : List Account) (nm : AccountName) :
    findAccount (a :: rest) nm =
      if a.name = nm then some 0 else (findAccount rest nm).map (· + 1) := rfl

lemma findAccount_append_some (l₁ l₂ : List Account) (nm : AccountName) (i : Nat)
    (h : findAccount l₁ nm = some i) : findAccount (l₁ ++ l₂) nm = some i := by
  induction l₁ generalizing i with
  | nil => simp [findAccount_nil] at h
  | cons a rest ih =>
    rw [List.cons_append, findAccount_cons]
    rw [findAccount_cons] at h
    by_cases ha : a.name = nm
    · simpa [ha] using h
    · rw [if_neg ha] at h ⊢
      obtain ⟨j, hj, rfl⟩ := Option.map_eq_some'.mp h
      simp [ih _ hj]

lemma findAccount_append_none (l₁ l₂ : List Account) (nm : AccountName)
    (h : findAccount l₁ nm = none) :
    findAccount (l₁ ++ l₂) nm = (findAccount l₂ nm).map (· + l₁.length) := by
  induction l₁ with
  | nil =>
    simp only [List.nil_append, List.length_nil]
    cases findAccount l₂ nm <;> simp
  | cons a rest ih =>
    rw [findAccount_cons] at h
    by_cases ha : a.name = nm
    · simp [ha] at h
    · rw [if_neg ha] at h
      have h' : findAccount rest nm = none := Option.map_eq_none'.mp h
      rw [List.cons_append, findAccount_cons, if_neg ha, ih h']
      cases findAccount l₂ nm with
      | none => simp
      | some x => simp [List.length_cons]; omega

lemma findAccount_singleton_self (row : Account) :
    findAccount [row] row.name = some 0 := by
  simp [findAccount_cons, findAccount_nil]

/-- `findAccount` finds nothing iff no row has the name. -/
lemma findAccount_none_iff (l : List Account) (nm : AccountName) :
    findAccount l nm = none ↔ (l.filter fun a => a.name = nm) = [] := by
  induction l with
  | nil => simp [findAccount_nil]
  | cons a rest ih =>
    rw [findAccount_cons, List.filter_cons]
    by_cases ha : a.name = nm
    · simp [ha]
    · simp [ha, Option.map_eq_none', ih]

lemma findAsset_nil (i : Nat) (key : List Nat) (g : Nat) : findAsset [] i key g = none := rfl

lemma findAsset_cons (a : Asset) (rest : List Asset) (i : Nat) (key : List Nat) (g : Nat) :
    findAsset (a :: rest) i key g =
      if a.symbol = key ∧ a.guild_id = g then some (i, a) else findAsset rest (i + 1) key g :=
  rfl

lemma findAsset_append_none (l₁ l₂ : List Asset) (i : Nat) (key : List Nat) (g : Nat)
    (h : findAsset l₁ i key g = none) :
    findAsset (l₁ ++ l₂) i key g = findAsset l₂ (i + l₁.length) key g := by
  induction l₁ generalizing i with
  | nil => simp [findAsset_nil]
  | cons a rest ih =>
    rw [findAsset_cons] at h
    by_cases ha : a.symbol = key ∧ a.guild_id = g
    · simp [ha] at h
    · rw [if_neg ha] at h
      rw [List.cons_append, findAsset_cons, if_neg ha, ih _ h, List.length_cons]
      congr 1
      omega

lemma insertAccountIOI_present (st : Db) (row : Account)
    (h : (findAccount st.accounts row.name).isSome = true) : insertAccountIOI st row = st := by
  unfold insertAccountIOI; rw [if_pos h]

lemma insertAccountIOI_absent (st : Db) (row : Account)
    (h : findAccount st.accounts row.name = none) :
    insertAccountIOI st row = { st with accounts := st.accounts ++ [row] } := by
  unfold insertAccountIOI; rw [if_neg (by simp [h])]

lemma sqliteSum_single_int (v : Int) : sqliteSum [⟨v, 0⟩] = (v : ℚ) := by
  simp [sqliteSum, sqliteSumStep]

lemma pyUpperChar_idem (c : Nat) : pyUpperChar (pyUpperChar c) = pyUpperChar c := by
  unfold pyUpperChar
  by_cases h : 97 ≤ c ∧ c ≤ 122
  · rw [if_pos h, if_neg (by omega)]
  · rw [if_neg h, if_neg h]

lemma pyUpper_idem (s : List Nat) : pyUpper (pyUpper s) = pyUpper s := by
  unfold pyUpper
  rw [List.map_map]
  exact List.map_congr_left fun c _ => pyUpperChar_idem c

/-- C2 (code_bug): `balance_of` does not return the exact decimal sum of
the postings.  For a single posting of text `'0.10000000'` (0.1 at the
asset's 8-decimal precision) the exact sum is 1/10, but SQLite coerces
the text to a binary64 REAL, so `balance_of` returns
`Decimal('0.1000000000000000055511151231257827021181583404541015625')`
(= 3602879701896397 / 2^55), which differs from 1/10. -/
theorem balance_of_single_posting_not_exact :
    balance_of dbOct 2 0 = Rat.divInt 3602879701896397 36028797018963968 ∧
    ledger_exact_sum dbOct 2 0 = Rat.divInt 1 10 ∧
    balance_of dbOct 2 0 ≠ ledger_exact_sum dbOct 2 0 := by
  refine ⟨by decide, by decide, by decide⟩

/-- C3 (code_bug): crediting `X = 0.20000000` and then debiting the same
`X` does not return `balance_of` to its prior value: SQLite's binary64
summation gives `(0.1 + 0.2) - 0.2 = 0.10000000000000003…`, while the
prior balance read `0.1000000000000000055511…`.  The exact decimal sum
of the postings, by contrast, does round-trip to exactly 1/10. -/
theorem round_trip_balance_drifts :
    balance_of dbOctRoundTrip 2 0 ≠ balance_of dbOct 2 0 ∧
    balance_of dbOct 2 0 = Rat.divInt 3602879701896397 36028797018963968 ∧
    balance_of dbOctRoundTrip 2 0 = Rat.divInt 1801439850948199 18014398509481984 ∧
    ledger_exact_sum dbOctRoundTrip 2 0 = Rat.divInt 1 10 ∧
    ledger_exact_sum dbOct 2 0 = Rat.divInt 1 10 := by
  refine ⟨by decide, by decide, by decide, by decide, by decide⟩

/-- C1 (counterexample): the claim fails on the code.  The treasury
auto-refill on `dbGold` (treasury balance 0) creates transaction 0 of
kind `auto_treasury_refill` with exactly one posting, and the signed
amounts of its postings for asset 0 sum to 1,000,000,000, not 0; the
`initial_issue` transaction written by `/currency create` is the same
single-credit shape. -/
theorem refill_and_initial_issue_transactions_unbalanced :
    refillOnGold.2 = true ∧
    refillOnGold.1.transactions = [⟨"auto_treasury_refill", none⟩] ∧
    tx_posting_count refillOnGold.1 0 = 1 ∧
    tx_asset_sum refillOnGold.1 0 0 = 1000000000 ∧
    ¬ tx_asset_sum refillOnGold.1 0 0 = 0 ∧
    createGold.2 = .ok 0 0 ∧
    createGold.1.transactions = [⟨"initial_issue", some 0⟩] ∧
    tx_posting_count createGold.1 0 = 1 ∧
    tx_asset_sum createGold.1 0 0 = 1000000000 ∧
    ¬ tx_asset_sum createGold.1 0 0 = 0 := by
  refine ⟨by decide, by decide, by decide, by decide, by decide, by decide, by decide,
    by decide, by decide, by decide⟩

/-- C6 (code_bug): the monthly allowance is not idempotent per period.
The duplicate check queries `monthly_allowance_history.user_id` with the
DISCORD id (`str(member.id)`, here 999), but `transfer_allowance`
records the row with the INTERNAL `users.id` (here 0), so the second run
for the same (tenant, role, user, asset, year-month) finds no match and
pays again: two history rows and a user balance of 2000 after two runs
of a 1000-unit allowance. -/
theorem monthly_allowance_double_pays :
    allowOnce.allowance_history.map (fun h => h.user_id) = [0] ∧
    allowTwice.allowance_history.length = 2 ∧
    balance_of allowTwice 2 0 = 2000 ∧
    balance_of allowTwice 0 0 = 1000000000 - 2000 := by
  refine ⟨by decide, by decide, by decide, by decide⟩

/-- C4 (confirmed): `auto_refill_treasury_if_needed` refills iff the
treasury balance is ≤ 0 or a required amount exceeding the balance is
supplied (the Python truthiness of `required_amount` makes the
`required_amount = 0` case fall through to the `balance ≤ 0` test, which
coincides with the claim's condition); when it refills it appends
exactly one `auto_treasury_refill` transaction with one credit of
1,000,000,000 (unscaled) to the treasury and returns `True`, otherwise
it changes nothing and returns `False`. -/
theorem auto_refill_iff_and_effect (st : Db) (t a g : Nat) (r : Option ℚ) :
    ((auto_refill_treasury_if_needed st t a g r).2 = true ↔
      balance_of st t a ≤ 0 ∨ ∃ q, r = some q ∧ balance_of st t a < q) ∧
    ((auto_refill_treasury_if_needed st t a g r).2 = true →
      (auto_refill_treasury_if_needed st t a g r).1 =
        { st with
            transactions := st.transactions ++ [⟨"auto_treasury_refill", none⟩],
            ledger := st.ledger ++ [⟨st.transactions.length, t, a, ⟨1000000000, 0⟩⟩] }) ∧
    ((auto_refill_treasury_if_needed st t a g r).2 = false →
      (auto_refill_treasury_if_needed st t a g r).1 = st) := by
  unfold auto_refill_treasury_if_needed
  rcases r with _ | q
  · by_cases h : balance_of st t a ≤ 0
    · simp [h, new_transaction, post_ledger]
    · simp [h]
  · by_cases h : balance_of st t a ≤ 0
    · by_cases h1 : q = 0 <;> by_cases h2 : balance_of st t a < q <;>
        simp [h, h1, h2, new_transaction, post_ledger]
    · by_cases h1 : q = 0
      · have h2 : ¬ balance_of st t a < q := fun hc => h (le_of_lt (h1 ▸ hc))
        simp [h, h1, h2]
        exact le_of_lt (not_le.mp h)
      · by_cases h2 : balance_of st t a < q
        · simp [h, h1, h2, new_transaction, post_ledger]
        · simp [h, h1, h2]

/-- Witness for C4 at a concrete input: on `dbGold` (treasury balance 0,
no required amount) the refill fires and appends the single
1,000,000,000 credit. -/
theorem auto_refill_iff_and_effect_witness :
    (auto_refill_treasury_if_needed dbGold 0 0 7 none).2 = true ∧
    (auto_refill_treasury_if_needed dbGold 0 0 7 none).1 =
      { dbGold with
          transactions := [⟨"auto_treasury_refill", none⟩],
          ledger := [⟨0, 0, 0, ⟨1000000000, 0⟩⟩] } := by
  have h := auto_refill_iff_and_effect dbGold 0 0 7 none
  have ht : (auto_refill_treasury_if_needed dbGold 0 0 7 none).2 = true :=
    h.1.mpr (Or.inl (by decide))
  refine ⟨ht, ?_⟩
  rw [h.2.1 ht]
  rfl

/-- C7 (counterexample): the refill's `db.commit()` runs on the caller's
own connection, so it commits the caller's pending, uncommitted writes
too.  Here the caller has an uncommitted account row
(`callerPendingRow`, written by `ensure_user_account` earlier in its
transaction); after the refill fires, that row is part of the committed
state even though the caller never committed. -/
theorem refill_commit_publishes_caller_pending_writes :
    refillOnConn.2 = true ∧
    callerPendingRow ∈ refillOnConn.1.committed.accounts ∧
    callerPendingRow ∉ connCaller.committed.accounts := by
  refine ⟨by decide, by decide, by decide⟩

/-- C5 (confirmed): when the debit amount exceeds `balance_of` of the
paying user account, `/pay` (and the role-purchase flow) return the
insufficient-balance error and the whole database state is unchanged —
the check happens before any posting and the close of the `async with`
block rolls the transaction back. -/
theorem pay_and_role_purchase_reject_overdraft (st : Db) (payer payee g : Nat)
    (symbol : List Nat) (amt : ℚ) (buyer plan_id : Nat) (price : Dec) (csym : List Nat) :
    (∀ aid asset, get_asset st (pyUpper symbol) g = some (aid, asset) →
      balance_of st (ensure_user_account st payer g).2 aid <
        (quantize_down amt asset.decimals).val →
      pay st payer payee g symbol amt = (st, .errInsufficient)) ∧
    (∀ aid asset, get_asset st csym g = some (aid, asset) →
      balance_of st (ensure_user_account (upsert_user st buyer).1 buyer g).2 aid < price.val →
      role_purchase_callback st buyer g plan_id price csym = (st, .errInsufficient)) := by
  constructor
  · intro aid asset hasset hover
    have hb :
        balance_of (ensure_user_account (ensure_user_account st payer g).1 payee g).1
            (ensure_user_account st payer g).2 aid =
          balance_of st (ensure_user_account st payer g).2 aid :=
      balance_of_congr _ _ _ _ (by simp)
    have hc :
        balance_of (ensure_user_account (ensure_user_account st payer g).1 payee g).1
            (ensure_user_account st payer g).2 aid <
          (quantize_down amt asset.decimals).val := by rw [hb]; exact hover
    simp [pay, hasset, hc]
  · intro aid asset hasset hover
    have hb :
        balance_of (ensure_user_account (upsert_user st buyer).1 buyer g).1
            (ensure_user_account (upsert_user st buyer).1 buyer g).2 aid =
          balance_of st (ensure_user_account (upsert_user st buyer).1 buyer g).2 aid :=
      balance_of_congr _ _ _ _ (by simp)
    have hc :
        balance_of (ensure_user_account (upsert_user st buyer).1 buyer g).1
            (ensure_user_account (upsert_user st buyer).1 buyer g).2 aid < price.val := by
      rw [hb]; exact hover
    simp [role_purchase_callback, hasset, hc]

/-- Witness for C5: user 42 holds exactly `'10.00'` GOLD in `dbPay`; an
attempted `/pay` of 10.01 and a role purchase priced `'10.01'` are both
rejected with the insufficient-balance error, leaving the state — and
hence the balance — unchanged. -/
theorem pay_and_role_purchase_reject_overdraft_witness :
    pay dbPay 42 55 7 (strCodes "GOLD") (Rat.divInt 1001 100) = (dbPay, .errInsufficient) ∧
    role_purchase_callback dbPay 42 7 3 ⟨1001, 2⟩ (strCodes "GOLD") =
      (dbPay, .errInsufficient) := by
  have h :=
    pay_and_role_purchase_reject_overdraft dbPay 42 55 7 (strCodes "GOLD")
      (Rat.divInt 1001 100) 42 3 ⟨1001, 2⟩ (strCodes "GOLD")
  exact ⟨h.1 0 ⟨7, strCodes "GOLD", strCodes "Gold Coin", 2⟩ (by decide) (by decide),
    h.2 0 ⟨7, strCodes "GOLD", strCodes "Gold Coin", 2⟩ (by decide) (by decide)⟩

/-- C7 (amended, theorem): when the refill fires it commits immediately
on the caller's connection: afterwards the committed state equals the
caller's whole pending view plus the refill transaction, pending and
committed coincide, and a later rollback of the connection changes
nothing — so the refill is durable against a later failure of the outer
operation, but every pending caller write was committed along with it.
When the refill does not fire, the connection is untouched. -/
theorem auto_refill_conn_commit_effect (c : Conn) (t a g : Nat) (r : Option ℚ) :
    ((auto_refill_treasury_if_needed_conn c t a g r).2 = true →
      (auto_refill_treasury_if_needed_conn c t a g r).1.committed =
        { c.pending with
            transactions := c.pending.transactions ++ [⟨"auto_treasury_refill", none⟩],
            ledger :=
              c.pending.ledger ++ [⟨c.pending.transactions.length, t, a, ⟨1000000000, 0⟩⟩] } ∧
      (auto_refill_treasury_if_needed_conn c t a g r).1.pending =
        (auto_refill_treasury_if_needed_conn c t a g r).1.committed ∧
      Conn.rollback (auto_refill_treasury_if_needed_conn c t a g r).1 =
        (auto_refill_treasury_if_needed_conn c t a g r).1) ∧
    ((auto_refill_treasury_if_needed_conn c t a g r).2 = false →
      (auto_refill_treasury_if_needed_conn c t a g r).1 = c) := by
  unfold auto_refill_treasury_if_needed_conn
  rcases r with _ | q
  · by_cases h : balance_of c.pending t a ≤ 0
    · simp [h, Conn.commit, Conn.rollback, new_transaction, post_ledger]
    · simp [h]
  · by_cases h : balance_of c.pending t a ≤ 0
    · by_cases h1 : q = 0 <;> by_cases h2 : balance_of c.pending t a < q <;>
        simp [h, h1, h2, Conn.commit, Conn.rollback, new_transaction, post_ledger]
    · by_cases h1 : q = 0
      · have h2 : ¬ balance_of c.pending t a < q := fun hc => h (le_of_lt (h1 ▸ hc))
        simp [h, h1, h2]
      · by_cases h2 : balance_of c.pending t a < q
        · simp [h, h1, h2, Conn.commit, Conn.rollback, new_transaction, post_ledger]
        · simp [h, h1, h2]

/-- Witness for C7's amended theorem: the caller on `connCaller` has an
uncommitted account row; the refill fires and afterwards committed and
pending coincide (the caller's row included) and rollback is a no-op. -/
theorem auto_refill_conn_commit_effect_witness :
    (auto_refill_treasury_if_needed_conn connCaller 0 0 7 (some 5)).1.committed =
      { connCaller.pending with
          transactions := [⟨"auto_treasury_refill", none⟩],
          ledger := [⟨0, 0, 0, ⟨1000000000, 0⟩⟩] } ∧
    (auto_refill_treasury_if_needed_conn connCaller 0 0 7 (some 5)).1.pending =
      (auto_refill_treasury_if_needed_conn connCaller 0 0 7 (some 5)).1.committed ∧
    Conn.rollback (auto_refill_treasury_if_needed_conn connCaller 0 0 7 (some 5)).1 =
      (auto_refill_treasury_if_needed_conn connCaller 0 0 7 (some 5)).1 := by
  have h := (auto_refill_conn_commit_effect connCaller 0 0 7 (some 5)).1 (by decide)
  refine ⟨?_, h.2.1, h.2.2⟩
  rw [h.1]
  rfl

lemma count_pos_of_find_some (l : List Account) (nm : AccountName) (i : Nat)
    (h : findAccount l nm = some i) : 0 < (l.filter fun a => a.name = nm).length := by
  by_cases hc : (l.filter fun a => a.name = nm) = []
  · rw [(findAccount_none_iff l nm).mpr hc] at h; cases h
  · exact List.length_pos.mpr hc

lemma upsert_user_users_mem (st : Db) (d : Nat) : d ∈ (upsert_user st d).1.users := by
  unfold upsert_user
  by_cases h : d ∈ st.users <;> simp [h]

lemma upsert_user_state_of_mem (st : Db) (d : Nat) (h : d ∈ st.users) :
    (upsert_user st d).1 = st := by
  unfold upsert_user; simp [h]

lemma ensure_user_account_eq_present (st : Db) (d g j : Nat)
    (hof : findAccount st.accounts (.user d g) = some j) :
    ensure_user_account st d g = ((upsert_user st d).1, j) := by
  simp only [ensure_user_account]
  have hpres :
      insertAccountIOI (upsert_user st d).1
        ⟨some (upsert_user st d).2, g, .user d g, "user"⟩ = (upsert_user st d).1 := by
    apply insertAccountIOI_present
    show (findAccount (upsert_user st d).1.accounts (.user d g)).isSome = true
    rw [upsert_user_accounts, hof]; rfl
  rw [hpres, upsert_user_accounts, hof]
  rfl

lemma ensure_user_account_eq_absent (st : Db) (d g : Nat)
    (hof : findAccount st.accounts (.user d g) = none) :
    ensure_user_account st d g =
      ({ (upsert_user st d).1 with
          accounts := st.accounts ++ [⟨some (upsert_user st d).2, g, .user d g, "user"⟩] },
        st.accounts.length) := by
  simp only [ensure_user_account]
  have habs :
      insertAccountIOI (upsert_user st d).1
          ⟨some (upsert_user st d).2, g, .user d g, "user"⟩ =
        { (upsert_user st d).1 with
            accounts := st.accounts ++ [⟨some (upsert_user st d).2, g, .user d g, "user"⟩] } := by
    have := insertAccountIOI_absent (upsert_user st d).1
      ⟨some (upsert_user st d).2, g, .user d g, "user"⟩ (by rw [upsert_user_accounts]; exact hof)
    rw [this]
    rfl
  rw [habs]
  have hlook :
      findAccount (st.accounts ++ [⟨some (upsert_user st d).2, g, .user d g, "user"⟩])
          (.user d g) = some st.accounts.length := by
    rw [findAccount_append_none _ _ _ hof]
    simp [findAccount_cons, findAccount_nil]
  simp [hlook]

lemma applyStep_preserves (st : Db) (nm : AccountName) (i : Nat) (op : StepOp)
    (hf : findAccount st.accounts nm = some i)
    (hc : account_name_count st nm = 1) :
    findAccount (applyStep st op).accounts nm = some i ∧
    account_name_count (applyStep st op) nm = 1 := by
  cases op with
  | insUser d2 =>
    exact ⟨by simpa [applyStep] using hf, by simpa [account_name_count, applyStep] using hc⟩
  | insAcc row =>
    show findAccount (insertAccountIOI st row).accounts nm = some i ∧
      account_name_count (insertAccountIOI st row) nm = 1
    by_cases hrow : (findAccount st.accounts row.name).isSome = true
    · rw [insertAccountIOI_present st row hrow]
      exact ⟨hf, hc⟩
    · have hnone : findAccount st.accounts row.name = none := by
        cases h' : findAccount st.accounts row.name
        · rfl
        · rw [h'] at hrow; simp at hrow
      have hne : ¬ row.name = nm := by
        rintro rfl
        rw [hf] at hnone
        cases hnone
      rw [insertAccountIOI_absent st row hnone]
      constructor
      · exact findAccount_append_some _ _ _ _ hf
      · unfold account_name_count at hc ⊢
        simp [List.filter_append, hne, hc]

lemma foldl_applyStep_inv (ops : List StepOp) (st : Db) (nm : AccountName) (i : Nat)
    (hf : findAccount st.accounts nm = some i)
    (hc : account_name_count st nm = 1) :
    findAccount (ops.foldl applyStep st).accounts nm = some i ∧
    account_name_count (ops.foldl applyStep st) nm = 1 := by
  induction ops generalizing st with
  | nil => exact ⟨hf, hc⟩
  | cons op rest ih =>
    have h := applyStep_preserves st nm i op hf hc
    exact ih _ h.1 h.2

/-- C8 (confirmed): one call of `ensure_user_account` leaves exactly one
account row for the (tenant, user) pair and its read-back finds that
row's id (no error); calling again returns the very same state and id;
and after any interleaving of the primitive insert-or-ignore writes of
other concurrent callers, the row is still unique and every further call
still returns the same id. -/
theorem ensure_user_account_idempotent_and_race_safe (st : Db) (d g : Nat)
    (huniq : account_name_count st (.user d g) ≤ 1) :
    account_name_count (ensure_user_account st d g).1 (.user d g) = 1 ∧
    findAccount (ensure_user_account st d g).1.accounts (.user d g) =
      some (ensure_user_account st d g).2 ∧
    ensure_user_account (ensure_user_account st d g).1 d g = ensure_user_account st d g ∧
    ∀ ops : List StepOp,
      account_name_count (ops.foldl applyStep (ensure_user_account st d g).1) (.user d g) = 1 ∧
      (ensure_user_account (ops.foldl applyStep (ensure_user_account st d g).1) d g).2 =
        (ensure_user_account st d g).2 := by
  have base :
      findAccount (ensure_user_account st d g).1.accounts (.user d g) =
        some (ensure_user_account st d g).2 ∧
      account_name_count (ensure_user_account st d g).1 (.user d g) = 1 ∧
      d ∈ (ensure_user_account st d g).1.users := by
    cases hof : findAccount st.accounts (.user d g) with
    | some j =>
      rw [ensure_user_account_eq_present st d g j hof]
      refine ⟨by rw [upsert_user_accounts, hof], ?_, upsert_user_users_mem st d⟩
      have hpos := count_pos_of_find_some _ _ _ hof
      unfold account_name_count at huniq ⊢
      simp only [upsert_user_accounts]
      omega
    | none =>
      rw [ensure_user_account_eq_absent st d g hof]
      refine ⟨?_, ?_, upsert_user_users_mem st d⟩
      · show findAccount
          (st.accounts ++ [⟨some (upsert_user st d).2, g, .user d g, "user"⟩]) (.user d g) =
            some st.accounts.length
        rw [findAccount_append_none _ _ _ hof]
        simp [findAccount_cons, findAccount_nil]
      · have hnil : (st.accounts.filter fun a => a.name = .user d g) = [] :=
          (findAccount_none_iff _ _).mp hof
        unfold account_name_count
        simp [List.filter_append, hnil]
  obtain ⟨hfind, hcount, hmem⟩ := base
  have hsecond :
      ensure_user_account (ensure_user_account st d g).1 d g = ensure_user_account st d g := by
    rw [ensure_user_account_eq_present _ d g _ hfind, upsert_user_state_of_mem _ _ hmem]
  refine ⟨hcount, hfind, hsecond, fun ops => ?_⟩
  have hinv := foldl_applyStep_inv ops _ _ _ hfind hcount
  refine ⟨hinv.2, ?_⟩
  rw [ensure_user_account_eq_present _ d g _ hinv.1]

/-- Witness for C8: on the empty database, one call creates the single
row, a second call is a no-op returning the same id, and after an
interleaved foreign insert the id is still the same. -/
theorem ensure_user_account_idempotent_and_race_safe_witness :
    account_name_count (ensure_user_account dbEmpty 5 7).1 (.user 5 7) = 1 ∧
    ensure_user_account (ensure_user_account dbEmpty 5 7).1 5 7 =
      ensure_user_account dbEmpty 5 7 ∧
    (ensure_user_account
        ([StepOp.insAcc ⟨some 9, 7, .user 5 7, "user"⟩].foldl applyStep
          (ensure_user_account dbEmpty 5 7).1) 5 7).2 =
      (ensure_user_account dbEmpty 5 7).2 := by
  have h := ensure_user_account_idempotent_and_race_safe dbEmpty 5 7 (by decide)
  exact ⟨h.1, h.2.2.1, (h.2.2.2 [StepOp.insAcc ⟨some 9, 7, .user 5 7, "user"⟩]).2⟩

@[simp] lemma create_asset_assets (st : Db) (symbol name : List Nat) (g dec : Nat) :
    (create_asset st symbol name g dec).assets =
      st.assets ++ [⟨g, pyUpper symbol, name, dec⟩] := rfl

@[simp] lemma create_asset_accounts (st : Db) (symbol name : List Nat) (g dec : Nat) :
    (create_asset st symbol name g dec).accounts = st.accounts := rfl

@[simp] lemma create_asset_ledger (st : Db) (symbol name : List Nat) (g dec : Nat) :
    (create_asset st symbol name g dec).ledger = st.ledger := rfl

@[simp] lemma create_asset_transactions (st : Db) (symbol name : List Nat) (g dec : Nat) :
    (create_asset st symbol name g dec).transactions = st.transactions := rfl

lemma insertAccountIOI_preserves_find (st : Db) (row : Account) (nm : AccountName) (i : Nat)
    (h : findAccount st.accounts nm = some i) :
    findAccount (insertAccountIOI st row).accounts nm = some i := by
  unfold insertAccountIOI
  split
  · exact h
  · exact findAccount_append_some _ _ _ _ h

lemma insertAccountIOI_find_self_exists (st : Db) (row : Account) :
    ∃ i, findAccount (insertAccountIOI st row).accounts row.name = some i := by
  cases hf : findAccount st.accounts row.name with
  | some j => rw [insertAccountIOI_present st row (by rw [hf]; rfl)]; exact ⟨j, hf⟩
  | none =>
    rw [insertAccountIOI_absent st row hf]
    refine ⟨st.accounts.length, ?_⟩
    show findAccount (st.accounts ++ [row]) row.name = some st.accounts.length
    rw [findAccount_append_none _ _ _ hf, findAccount_singleton_self]
    simp

lemma ensure_system_accounts_treasury (st : Db) (g : Nat) :
    ∃ i, findAccount (ensure_system_accounts st g).accounts (.treasury g) = some i := by
  unfold ensure_system_accounts
  obtain ⟨i, hi⟩ := insertAccountIOI_find_self_exists st ⟨none, g, .treasury g, "treasury"⟩
  exact ⟨i, insertAccountIOI_preserves_find _ _ _ _ hi⟩

lemma getD_append_self (l : List Tx) (x d : Tx) : (l ++ [x]).getD l.length d = x := by
  induction l with
  | nil => rfl
  | cons a rest ih => simpa using ih

lemma Dec.val_int (v : Int) : Dec.val ⟨v, 0⟩ = (v : ℚ) := by
  unfold Dec.val
  norm_num [Rat.divInt_one]

lemma Dec.val_neg_eq (d : Dec) : Dec.val (Dec.neg d) = -Dec.val d := by
  unfold Dec.val Dec.neg
  rw [Rat.neg_divInt]

/-- `create_currency` on a fresh (tenant, symbol): the full shape of the
success path — new asset id `st.assets.length`, one `initial_issue`
transaction, one 1,000,000,000 posting to the treasury account. -/
lemma create_currency_fresh (st : Db) (creator g : Nat) (symbol name : List Nat)
    (decimals : Nat) (hfresh : get_asset st (pyUpper symbol) g = none) :
    ∃ tid cb st',
      create_currency st creator g symbol name decimals = (st', .ok st.assets.length tid) ∧
      st'.assets = st.assets ++ [⟨g, pyUpper (pyUpper symbol), name, decimals⟩] ∧
      st'.transactions = st.transactions ++ [⟨"initial_issue", cb⟩] ∧
      st'.ledger =
        st.ledger ++ [⟨st.transactions.length, tid, st.assets.length, ⟨1000000000, 0⟩⟩] := by
  obtain ⟨tid, htid⟩ :=
    ensure_system_accounts_treasury (create_asset st (pyUpper symbol) name g decimals) g
  have hga2 :
      get_asset (ensure_system_accounts (create_asset st (pyUpper symbol) name g decimals) g)
          (pyUpper symbol) g =
        some (st.assets.length, ⟨g, pyUpper (pyUpper symbol), name, decimals⟩) := by
    unfold get_asset at hfresh ⊢
    rw [ensure_system_accounts_assets, create_asset_assets,
      findAsset_append_none _ _ _ _ _ hfresh]
    simp [findAsset_cons]
  have htid' :
      account_id_by_name
          (ensure_system_accounts (create_asset st (pyUpper symbol) name g decimals) g)
          (.treasury g) = some tid := htid
  refine ⟨tid,
    some (upsert_user
      (ensure_system_accounts (create_asset st (pyUpper symbol) name g decimals) g)
      creator).2,
    post_ledger
      (new_transaction
        (upsert_user
          (ensure_system_accounts (create_asset st (pyUpper symbol) name g decimals) g)
          creator).1
        "initial_issue"
        (some (upsert_user
          (ensure_system_accounts (create_asset st (pyUpper symbol) name g decimals) g)
          creator).2)).1
      (new_transaction
        (upsert_user
          (ensure_system_accounts (create_asset st (pyUpper symbol) name g decimals) g)
          creator).1
        "initial_issue"
        (some (upsert_user
          (ensure_system_accounts (create_asset st (pyUpper symbol) name g decimals) g)
          creator).2)).2
      tid st.assets.length ⟨1000000000, 0⟩,
    ?_, ?_, ?_, ?_⟩
  · simp only [create_currency, hfresh, hga2, htid']
  · simp
  · simp
  · simp

/-- C9 (confirmed): `create_asset` stores the upper-cased symbol and
`get_asset` upper-cases before comparing, so after creating an asset
with any casing the lookup succeeds for every casing of the symbol; a
second creation with any casing of the same (tenant, symbol) fails with
the duplicate error and inserts nothing (the state is returned
unchanged). -/
theorem create_currency_symbol_casing (st : Db) (creator creator2 g : Nat)
    (symbol name name2 t : List Nat) (decimals decimals2 : Nat)
    (hfresh : get_asset st (pyUpper symbol) g = none)
    (hcase : pyUpper t = pyUpper symbol) :
    get_asset (create_currency st creator g symbol name decimals).1 t g =
      some (st.assets.length, ⟨g, pyUpper symbol, name, decimals⟩) ∧
    create_currency (create_currency st creator g symbol name decimals).1 creator2 g t
        name2 decimals2 =
      ((create_currency st creator g symbol name decimals).1, .errDuplicate) := by
  obtain ⟨tid, cb, st', heq, hassets, htx, hledger⟩ :=
    create_currency_fresh st creator g symbol name decimals hfresh
  rw [heq]
  have hfresh' : findAsset st.assets 0 (pyUpper symbol) g = none := by
    have h2 := hfresh
    unfold get_asset at h2
    rwa [pyUpper_idem] at h2
  have hlook : get_asset st' t g =
      some (st.assets.length, ⟨g, pyUpper symbol, name, decimals⟩) := by
    unfold get_asset
    rw [hassets, hcase, findAsset_append_none _ _ _ _ _ hfresh']
    simp [findAsset_cons, pyUpper_idem]
  have hdup : get_asset st' (pyUpper t) g =
      some (st.assets.length, ⟨g, pyUpper symbol, name, decimals⟩) := by
    unfold get_asset at hlook ⊢
    rwa [pyUpper_idem]
  refine ⟨hlook, ?_⟩
  simp only [create_currency, hdup]

/-- Witness for C9: create `gold` on the empty tenant; lookup with the
casing `GoLD` succeeds, and a second creation as `GoLD` is rejected as a
duplicate with the state unchanged. -/
theorem create_currency_symbol_casing_witness :
    get_asset (create_currency dbEmpty 99 7 (strCodes "gold") (strCodes "Gold Coin") 2).1
        (strCodes "GoLD") 7 =
      some (0, ⟨7, pyUpper (strCodes "gold"), strCodes "Gold Coin", 2⟩) ∧
    create_currency (create_currency dbEmpty 99 7 (strCodes "gold") (strCodes "Gold Coin") 2).1
        55 7 (strCodes "GoLD") (strCodes "Another") 4 =
      ((create_currency dbEmpty 99 7 (strCodes "gold") (strCodes "Gold Coin") 2).1,
        .errDuplicate) := by
  have h :=
    create_currency_symbol_casing dbEmpty 99 55 7 (strCodes "gold") (strCodes "Gold Coin")
      (strCodes "Another") (strCodes "GoLD") 2 4 (by decide) (by decide)
  exact ⟨h.1, h.2⟩

/-- C10 (confirmed): creating a fresh currency immediately issues
exactly 1,000,000,000 units of the new asset to the tenant's treasury
under a single-posting transaction of kind `initial_issue`, so the
treasury's balance for the new asset is 1,000,000,000 right after the
operation. -/
theorem create_currency_funds_treasury (st : Db) (creator g : Nat) (symbol name : List Nat)
    (decimals : Nat)
    (hfresh : get_asset st (pyUpper symbol) g = none)
    (hwfa : ∀ e ∈ st.ledger, e.asset_id < st.assets.length)
    (hwft : ∀ e ∈ st.ledger, e.tx_id < st.transactions.length) :
    (create_currency st creator g symbol name decimals).2.isOk = true ∧
    (create_currency st creator g symbol name decimals).2.assetId = st.assets.length ∧
    balance_of (create_currency st creator g symbol name decimals).1
      (create_currency st creator g symbol name decimals).2.treasuryId
      (create_currency st creator g symbol name decimals).2.assetId = 1000000000 ∧
    tx_posting_count (create_currency st creator g symbol name decimals).1
      st.transactions.length = 1 ∧
    tx_asset_sum (create_currency st creator g symbol name decimals).1
      st.transactions.length st.assets.length = 1000000000 ∧
    ((create_currency st creator g symbol name decimals).1.transactions.getD
      st.transactions.length ⟨"", none⟩).kind = "initial_issue" := by
  obtain ⟨tid, cb, st', heq, hassets, htx, hledger⟩ :=
    create_currency_fresh st creator g symbol name decimals hfresh
  rw [heq]
  simp only [CreateCurrencyResult.isOk, CreateCurrencyResult.assetId,
    CreateCurrencyResult.treasuryId]
  refine ⟨by trivial, by trivial, ?_, ?_, ?_, ?_⟩
  · unfold balance_of
    rw [hledger, List.filter_append]
    have hold :
        (st.ledger.filter fun e => e.account_id = tid ∧ e.asset_id = st.assets.length) = [] := by
      rw [List.filter_eq_nil_iff]
      intro e he
      have := hwfa e he
      simp
      omega
    rw [hold]
    simp [sqliteSum_single_int]
  · unfold tx_posting_count
    rw [hledger, List.filter_append]
    have hold : (st.ledger.filter fun e => e.tx_id = st.transactions.length) = [] := by
      rw [List.filter_eq_nil_iff]
      intro e he
      have := hwft e he
      simp
      omega
    rw [hold]
    simp
  · unfold tx_asset_sum
    rw [hledger, List.filter_append]
    have hold :
        (st.ledger.filter fun e =>
          e.tx_id = st.transactions.length ∧ e.asset_id = st.assets.length) = [] := by
      rw [List.filter_eq_nil_iff]
      intro e he
      have := hwft e he
      simp
      omega
    rw [hold]
    simp [Dec.val_int]
  · rw [htx, getD_append_self]

/-- Witness for C10: creating `gold` on the empty tenant yields asset id
0, treasury id 0, a treasury balance of exactly 1,000,000,000 for the
new asset, and a single-posting `initial_issue` transaction. -/
theorem create_currency_funds_treasury_witness :
    (create_currency dbEmpty 99 7 (strCodes "gold") (strCodes "Gold Coin") 2).2.isOk = true ∧
    balance_of (create_currency dbEmpty 99 7 (strCodes "gold") (strCodes "Gold Coin") 2).1
      (create_currency dbEmpty 99 7 (strCodes "gold") (strCodes "Gold Coin") 2).2.treasuryId
      (create_currency dbEmpty 99 7 (strCodes "gold") (strCodes "Gold Coin") 2).2.assetId =
      1000000000 ∧
    tx_posting_count
      (create_currency dbEmpty 99 7 (strCodes "gold") (strCodes "Gold Coin") 2).1 0 = 1 ∧
    ((create_currency dbEmpty 99 7 (strCodes "gold") (strCodes "Gold Coin") 2).1.transactions.getD
      0 ⟨"", none⟩).kind = "initial_issue" := by
  have h :=
    create_currency_funds_treasury dbEmpty 99 7 (strCodes "gold") (strCodes "Gold Coin") 2
      (by decide) (by decide) (by decide)
  exact ⟨h.1, h.2.2.1, h.2.2.2.1, h.2.2.2.2.2⟩

/-- The state `auto_refill_treasury_if_needed` produces when it refills. -/
lemma auto_refill_true_state (st : Db) (t a g : Nat) (r : Option ℚ)
    (htrue : (auto_refill_treasury_if_needed st t a g r).2 = true) :
    (auto_refill_treasury_if_needed st t a g r).1 =
      { st with
          transactions := st.transactions ++ [⟨"auto_treasury_refill", none⟩],
          ledger := st.ledger ++ [⟨st.transactions.length, t, a, ⟨1000000000, 0⟩⟩] } := by
  unfold auto_refill_treasury_if_needed at htrue ⊢
  rcases r with _ | q
  · by_cases h : balance_of st t a ≤ 0
    · simp [h, new_transaction, post_ledger]
    · simp [h] at htrue
  · by_cases h : balance_of st t a ≤ 0
    · by_cases h1 : q = 0 <;> by_cases h2 : balance_of st t a < q <;>
        simp [h, h1, h2, new_transaction, post_ledger]
    · by_cases h1 : q = 0
      · have h2 : ¬ balance_of st t a < q := fun hc => h (le_of_lt (h1 ▸ hc))
        simp [h, h1, h2] at htrue
      · by_cases h2 : balance_of st t a < q
        · simp [h, h1, h2, new_transaction, post_ledger]
        · simp [h, h1, h2] at htrue

/-- C1 (amended, theorem): the postings of a transaction created by a
successful `/pay` transfer sum to zero for every asset; but the
`auto_treasury_refill` and `initial_issue` transactions each carry
exactly one posting, and their signed postings sum to 1,000,000,000 for
the issued asset, not zero. -/
theorem tx_sums_transfers_balanced_mints_unbalanced (st : Db) (payer payee g : Nat)
    (symbol : List Nat) (amt : ℚ) (t a gr : Nat) (r : Option ℚ)
    (creator gc : Nat) (csymbol cname : List Nat) (cdec : Nat)
    (hwft : ∀ e ∈ st.ledger, e.tx_id < st.transactions.length) :
    ((pay st payer payee g symbol amt).2 = .ok →
      ∀ aid, tx_asset_sum (pay st payer payee g symbol amt).1 st.transactions.length aid = 0) ∧
    ((auto_refill_treasury_if_needed st t a gr r).2 = true →
      tx_posting_count (auto_refill_treasury_if_needed st t a gr r).1
        st.transactions.length = 1 ∧
      tx_asset_sum (auto_refill_treasury_if_needed st t a gr r).1
        st.transactions.length a = 1000000000) ∧
    (get_asset st (pyUpper csymbol) gc = none →
      tx_posting_count (create_currency st creator gc csymbol cname cdec).1
        st.transactions.length = 1 ∧
      tx_asset_sum (create_currency st creator gc csymbol cname cdec).1
        st.transactions.length st.assets.length = 1000000000) := by
  refine ⟨?_, ?_, ?_⟩
  · intro hok aid
    cases hga : get_asset st (pyUpper symbol) g with
    | none => simp [pay, hga] at hok
    | some pr =>
      obtain ⟨aid0, asset⟩ := pr
      by_cases hb :
          balance_of (ensure_user_account (ensure_user_account st payer g).1 payee g).1
            (ensure_user_account st payer g).2 aid0 < (quantize_down amt asset.decimals).val
      · simp [pay, hga, hb] at hok
      · have hold :
            (st.ledger.filter fun e =>
              decide (e.tx_id = st.transactions.length) && decide (e.asset_id = aid)) = [] := by
          rw [List.filter_eq_nil_iff]
          intro e he
          have := hwft e he
          simp
          omega
        by_cases haid : aid0 = aid
        · subst haid
          simp [pay, hga, hb, tx_asset_sum, List.filter_append, hold, post_ledger,
            new_transaction, Dec.val_neg_eq]
        · simp [pay, hga, hb, tx_asset_sum, List.filter_append, hold, post_ledger,
            new_transaction, haid]
  · intro htrue
    rw [auto_refill_true_state st t a gr r htrue]
    constructor
    · have hold : (st.ledger.filter fun e => e.tx_id = st.transactions.length) = [] := by
        rw [List.filter_eq_nil_iff]
        intro e he
        have := hwft e he
        simp
        omega
      unfold tx_posting_count
      simp [List.filter_append, hold]
    · have hold :
          (st.ledger.filter fun e =>
            decide (e.tx_id = st.transactions.length) && decide (e.asset_id = a)) = [] := by
        rw [List.filter_eq_nil_iff]
        intro e he
        have := hwft e he
        simp
        omega
      unfold tx_asset_sum
      simp [List.filter_append, hold, Dec.val_int]
  · intro hfreshC
    obtain ⟨tid, cb, st', heq, hassets, htx, hledger⟩ :=
      create_currency_fresh st creator gc csymbol cname cdec hfreshC
    rw [heq]
    constructor
    · have hold : (st.ledger.filter fun e => e.tx_id = st.transactions.length) = [] := by
        rw [List.filter_eq_nil_iff]
        intro e he
        have := hwft e he
        simp
        omega
      unfold tx_posting_count
      rw [hledger]
      simp [List.filter_append, hold]
    · have hold :
          (st.ledger.filter fun e =>
            decide (e.tx_id = st.transactions.length) && decide (e.asset_id = st.assets.length)) =
              [] := by
        rw [List.filter_eq_nil_iff]
        intro e he
        have := hwft e he
        simp
        omega
      unfold tx_asset_sum
      rw [hledger]
      simp [List.filter_append, hold, Dec.val_int]

/-- Witness for C1's amended theorem on `dbPay` (one existing
transaction, so the new transaction id is 1): a successful `/pay` of
3 GOLD nets to zero for the paid asset, while the refill and a fresh
`SILVER` creation each write one posting summing to 1,000,000,000. -/
theorem tx_sums_transfers_balanced_mints_unbalanced_witness :
    tx_asset_sum (pay dbPay 42 55 7 (strCodes "GOLD") 3).1 1 0 = 0 ∧
    tx_posting_count (auto_refill_treasury_if_needed dbPay 0 0 7 none).1 1 = 1 ∧
    tx_asset_sum (auto_refill_treasury_if_needed dbPay 0 0 7 none).1 1 0 = 1000000000 ∧
    tx_posting_count (create_currency dbPay 42 7 (strCodes "SILVER") (strCodes "Silver") 2).1
      1 = 1 ∧
    tx_asset_sum (create_currency dbPay 42 7 (strCodes "SILVER") (strCodes "Silver") 2).1
      1 1 = 1000000000 := by
  have h :=
    tx_sums_transfers_balanced_mints_unbalanced dbPay 42 55 7 (strCodes "GOLD") 3 0 0 7 none
      42 7 (strCodes "SILVER") (strCodes "Silver") 2 (by decide)
  exact ⟨h.1 (by decide) 0, (h.2.1 (by decide)).1, (h.2.1 (by decide)).2,
    (h.2.2 (by decide)).1, (h.2.2 (by decide)).2⟩

end WonderRabbit
